/-
Verification of the PRISMA flow-diagram status engine
(`src/py_prisma/loader.py` of CoLRev-Environment/prisma-flow-diagram).

The Python module is shallowly embedded: record collections become
association lists `List (String × Rec)` with `Rec = List (String × String)`
(Python `dict` iteration order is the list order, and `dict` lookup is the
first matching key); Python `dict`s built incrementally by the code under
verification become association lists maintained with the same
insertion/update discipline as CPython (update in place, append new keys);
string primitives (`strip`, `lower`, `split`, substring test, `startswith`)
are re-implemented character-by-character over `String.data`.
-/
import Mathlib

namespace PyPrisma

/-! ### Python string primitives -/

/-- Python `str.lower()` (ASCII case folding, which is all the status
vocabulary uses). -/
def pyLower (s : String) : String :=
  ⟨s.data.map Char.toLower⟩

/-- Drop leading and trailing characters satisfying `p`. -/
def trimCharsBy (p : Char → Bool) (l : List Char) : List Char :=
  ((l.dropWhile p).reverse.dropWhile p).reverse

/-- Python `str.strip()`: remove leading/trailing whitespace. -/
def pyStrip (s : String) : String :=
  ⟨trimCharsBy Char.isWhitespace s.data⟩

/-- Python `str.strip(chars)`: remove leading/trailing characters from the
given set. -/
def pyStripSet (s : String) (cs : List Char) : String :=
  ⟨trimCharsBy (cs.contains ·) s.data⟩

/-- Python `needle in haystack` (substring containment). -/
def strContains (hay pat : String) : Bool :=
  hay.data.tails.any (pat.data.isPrefixOf ·)

/-- Python `str.startswith(prefix)`. -/
def pyStartsWith (s pre : String) : Bool :=
  pre.data.isPrefixOf s.data

/-- Python `str.split(sep)` for a one-character separator (keeps empty
pieces, like Python's `split` with an explicit separator). -/
def splitChar (sep : Char) : List Char → List (List Char)
  | [] => [[]]
  | c :: cs =>
    let r := splitChar sep cs
    if c = sep then [] :: r
    else
      match r with
      | [] => [[c]]
      | h :: t => (c :: h) :: t

/-- Python `str.split(sep, 1)` restricted to the case used by the code:
returns the pieces before and after the FIRST occurrence of `sep`, or
`none` when `sep` does not occur (`sep in part` is false). -/
def splitFirst (sep : Char) : List Char → Option (List Char × List Char)
  | [] => none
  | c :: cs =>
    if c = sep then some ([], cs)
    else (splitFirst sep cs).map (fun p => (c :: p.1, p.2))

/-- Python `str.replace(old, new)` for one-character arguments. -/
def replaceChar (old new : Char) (s : String) : String :=
  ⟨s.data.map (fun c => if c = old then new else c)⟩

/-! ### Records -/

/-- A record: a Python `dict[str, str]` field mapping, as an association
list in insertion order. -/
abbrev Rec := List (String × String)

/-- Python `rec.get(key)`: first entry with the given key, if any. -/
def rget (r : Rec) (k : String) : Option String :=
  (r.find? (·.1 == k)).map (·.2)

/-- `get_status(rec)`: try `colrev_status`, `status`, `screening_status` in
order; return the first truthy (non-empty) value, stripped; else `""`. -/
def get_status (r : Rec) : String :=
  match (["colrev_status", "status", "screening_status"].findSome? fun k =>
      match rget r k with
      | some v => if v ≠ "" then some (pyStrip v) else none
      | none => none) with
  | some s => s
  | none => ""

/-! ### Status buckets -/

/-- `PDF_NOT_RETRIEVED_STATUSES`. -/
def PDF_NOT_RETRIEVED_STATUSES : List String :=
  ["pdf_needs_manual_retrieval", "pdf_not_available"]

/-- `PDF_RETRIEVED_STATUSES`. -/
def PDF_RETRIEVED_STATUSES : List String :=
  ["pdf_imported", "pdf_needs_manual_preparation", "pdf_prepared"]

/-- `status_bucket(status)`: the ordered substring rule chain of
`loader.py`. -/
def status_bucket (status : String) : String :=
  let s := pyLower status
  if strContains s "rev_prescreen_excluded" then "prescreen_excluded"
  else if ["excluded", "reject"].any (strContains s ·) then "fulltext_excluded"
  else if ["prescreen", "screened"].any (strContains s ·) then "screened"
  else if PDF_NOT_RETRIEVED_STATUSES.any (strContains s ·) then "pdf_not_retrieved"
  else if PDF_RETRIEVED_STATUSES.any (strContains s ·) then "pdf_retrieved"
  else if ["included", "accept", "synth"].any (strContains s ·) then "included"
  else if ["duplicate", "dedupe"].any (strContains s ·) then "duplicate"
  else "other"

/-- The closed set of bucket tags. -/
def bucketTags : List String :=
  ["prescreen_excluded", "fulltext_excluded", "screened", "pdf_not_retrieved",
   "pdf_retrieved", "included", "duplicate", "other"]

/-! ### Origin statistics -/

/-- `_split_origin(value)`: split a `;`-separated origin string into its
non-empty stripped parts (`None` and `""` are falsy and give `[]`). -/
def split_origin (value : Option String) : List String :=
  match value with
  | none => []
  | some s =>
    if s = "" then []
    else ((splitChar ';' s.data).map (fun p => pyStrip ⟨p⟩)).filter (· ≠ "")

/-- One step of the `compute_origin_stats` loop: the state is
`(total_origins, kept, any_origin)`. -/
def originStep (acc : Int × Int × Bool) (entry : String × Rec) : Int × Int × Bool :=
  if pyStartsWith entry.1 "md_" then acc
  else
    let parts := split_origin (rget entry.2 "colrev_origin")
    (acc.1 + (if parts ≠ [] then (parts.length : Int) else 0),
     acc.2.1 + 1,
     acc.2.2 || !parts.isEmpty)

/-- `compute_origin_stats(records)` with the default `origin_field` and
`record_id_prefix_exclude` arguments. -/
def compute_origin_stats (records : List (String × Rec)) : Option Int × Option Int :=
  let st := records.foldl originStep (0, 0, false)
  if !st.2.2 then (none, none)
  else (some st.1, some (max 0 (st.1 - st.2.1)))

/-! ### Screening-criteria parsing -/

/-- The `out_vals` vocabulary. -/
def out_vals : List String := ["out", "exclude", "excluded", "0", "false", "no"]

/-- The `in_vals` vocabulary. -/
def in_vals : List String := ["in", "include", "included", "1", "true", "yes"]

/-- Python `result[k] = v` on a dict kept as an association list: update in
place when the key exists, append otherwise. -/
def dictSet (d : List (String × Nat)) (k : String) (v : Nat) : List (String × Nat) :=
  match d with
  | [] => [(k, v)]
  | (k', v') :: t => if k' = k then (k, v) :: t else (k', v') :: dictSet t k v

/-- The body of the `parse_screening_criteria` loop for one already-split
`key`/`value` pair. -/
def criteriaEntry (result : List (String × Nat)) (kv : List Char × List Char) :
    List (String × Nat) :=
  let k := pyStrip ⟨kv.1⟩
  let v := pyLower (pyStrip ⟨kv.2⟩)
  if out_vals.contains v then dictSet result k 1
  else if in_vals.contains v then dictSet result k 0
  else result

/-- `parse_screening_criteria(value)`: strip outer whitespace and braces,
split entries on `;`/`,`, split each entry at the first `=` (or, failing
that, `:`), and map the value through the in/out vocabularies. -/
def parse_screening_criteria (value : Option String) : List (String × Nat) :=
  match value with
  | none => []
  | some raw =>
    if raw = "" then []
    else
      let s := pyStripSet (pyStrip raw) ['{', '}']
      let parts := splitChar ',' (replaceChar ';' ',' s).data
      parts.foldl (fun result part =>
        match splitFirst '=' part with
        | some kv => criteriaEntry result kv
        | none =>
          match splitFirst ':' part with
          | some kv => criteriaEntry result kv
          | none => result) []

/-! ### The aggregator -/

/-- The bucket counters of `records_to_status`. -/
structure Buckets where
  screened : Nat := 0
  prescreen_excluded : Nat := 0
  fulltext_excluded : Nat := 0
  pdf_not_retrieved : Nat := 0
  pdf_retrieved : Nat := 0
  included : Nat := 0
  duplicate : Nat := 0
  other : Nat := 0
deriving Repr, DecidableEq

/-- `buckets[b] += 1` for a bucket tag produced by `status_bucket`. -/
def Buckets.bump (b : Buckets) (tag : String) : Buckets :=
  if tag = "screened" then { b with screened := b.screened + 1 }
  else if tag = "prescreen_excluded" then { b with prescreen_excluded := b.prescreen_excluded + 1 }
  else if tag = "fulltext_excluded" then { b with fulltext_excluded := b.fulltext_excluded + 1 }
  else if tag = "pdf_not_retrieved" then { b with pdf_not_retrieved := b.pdf_not_retrieved + 1 }
  else if tag = "pdf_retrieved" then { b with pdf_retrieved := b.pdf_retrieved + 1 }
  else if tag = "included" then { b with included := b.included + 1 }
  else if tag = "duplicate" then { b with duplicate := b.duplicate + 1 }
  else if tag = "other" then { b with other := b.other + 1 }
  else b

/-- `fulltext_reasons[k] = fulltext_reasons.get(k, 0) + v`. -/
def dictAdd (d : List (String × Nat)) (k : String) (v : Nat) : List (String × Nat) :=
  match d with
  | [] => [(k, v)]
  | (k', v') :: t => if k' = k then (k', v' + v) :: t else (k', v') :: dictAdd t k v

/-- The reason-tally update performed for one record classified as
`fulltext_excluded` (with the default `screening_criteria` and
`exclusion_reason` keys): structured criteria win when they parse to a
non-empty mapping, else the stripped free-text reason is tallied if
non-empty. -/
def reasonStep (d : List (String × Nat)) (r : Rec) : List (String × Nat) :=
  let parsed := parse_screening_criteria (rget r "screening_criteria")
  if parsed ≠ [] then
    parsed.foldl (fun d kv => dictAdd d kv.1 kv.2) d
  else
    let reason := pyStrip ((rget r "exclusion_reason").getD "")
    if reason ≠ "" then dictAdd d reason 1 else d

/-- One iteration of the main `records_to_status` loop over `(buckets,
fulltext_reasons)`. -/
def aggStep (st : Buckets × List (String × Nat)) (entry : String × Rec) :
    Buckets × List (String × Nat) :=
  let b := status_bucket (get_status entry.2)
  (st.1.bump b, if b = "fulltext_excluded" then reasonStep st.2 entry.2 else st.2)

/-- The `PrismaStatus` dataclass. `reports_excluded` holds the reason
tally dict (when non-empty) exactly as `records_to_status` builds it. -/
structure PrismaStatus where
  databases : Option Int := none
  registers : Option Int := none
  duplicates : Option Int := none
  automation : Option Int := none
  other_removed : Option Int := none
  screened : Option Int := none
  records_excluded : Option Int := none
  reports_sought : Option Int := none
  not_retrieved : Option Int := none
  assessed : Option Int := none
  reports_excluded : Option (List (String × Nat)) := none
  included : Option Int := none
  new_reports : Option Int := none
deriving Repr, DecidableEq

/-- `records_to_status(records)` with the default keyword arguments. -/
def records_to_status (records : List (String × Rec)) : PrismaStatus :=
  let st := records.foldl aggStep ({}, [])
  let buckets := st.1
  let fulltext_reasons := st.2
  let screened_total : Int :=
    (buckets.screened : Int) + buckets.prescreen_excluded
      + buckets.pdf_not_retrieved + buckets.pdf_retrieved + buckets.included
  let records_sought : Int := screened_total - buckets.prescreen_excluded
  let assessed : Int := (buckets.pdf_retrieved : Int) + buckets.included
  let origin := compute_origin_stats records
  { databases := origin.1
    duplicates := origin.2
    screened := some screened_total
    records_excluded := some buckets.prescreen_excluded
    reports_sought := some records_sought
    not_retrieved := some buckets.pdf_not_retrieved
    assessed := some assessed
    reports_excluded := if fulltext_reasons = [] then none else some fulltext_reasons
    included := some buckets.included
    new_reports := some buckets.included }

/-! ### The reasons model (`_to_int` / `normalize_reasons`)

`normalize_reasons` takes a `ReasonsLike` union value whose mapping member
is `Mapping[str, Any]`, so the embedding needs a model of dynamically typed
Python values. Python operations that can raise are embedded in
`Except String`. -/

/-- A dynamically typed Python value, as far as the reasons model needs. -/
inductive PyVal where
  | pnone
  | pbool (b : Bool)
  | pint (n : Int)
  | pstr (s : String)
  | pmap (entries : List (String × PyVal))

/-- Python truthiness for `PyVal`. -/
def PyVal.truthy : PyVal → Bool
  | .pnone => false
  | .pbool b => b
  | .pint n => n ≠ 0
  | .pstr s => s ≠ ""
  | .pmap m => !m.isEmpty

/-- Python `str(x)` for `PyVal` (mappings stringify to a brace-delimited
repr, which is never an integer literal — that is all `_to_int` needs). -/
def PyVal.pyStr : PyVal → String
  | .pnone => "None"
  | .pbool b => if b then "True" else "False"
  | .pint n => toString n
  | .pstr s => s
  | .pmap _ => "{...}"

/-- Lenient integer-literal parse: the behavior of Python `int(string)`
(whitespace tolerated, optional sign, at least one digit), as `none` on
failure. Numeric-literal underscores are not modelled. -/
def parseIntLit (s : String) : Option Int :=
  let l := trimCharsBy Char.isWhitespace s.data
  let (sign, digits) :=
    match l with
    | '-' :: rest => ((-1 : Int), rest)
    | '+' :: rest => ((1 : Int), rest)
    | _ => ((1 : Int), l)
  if digits ≠ [] ∧ digits.all Char.isDigit then
    some (sign * (digits.foldl (fun acc c => acc * 10 + (c.toNat - '0'.toNat)) 0 : Nat))
  else none

/-- `_to_int(x)`: never raises; the `try int(str(x).strip())` is the
lenient literal parse. -/
def to_int : PyVal → Option Int
  | .pnone => none
  | .pbool b => some (if b then 1 else 0)
  | .pint n => some n
  | x => parseIntLit (pyStrip x.pyStr)

/-- Python `int(v)` applied to a dynamic value: raises (`Except.error`) on
`None`, mappings, and non-integer-literal strings. -/
def pyIntCoerce : PyVal → Except String Int
  | .pnone => .error "TypeError"
  | .pbool b => .ok (if b then 1 else 0)
  | .pint n => .ok n
  | .pstr s =>
    match parseIntLit s with
    | some n => .ok n
    | none => .error "ValueError"
  | .pmap _ => .error "TypeError"

/-- The numeric value of a dynamic operand of `+`: ints and bools add,
anything else raises (`sum` does not coerce strings the way `int()`
does). -/
def pyNum : PyVal → Except String Int
  | .pbool b => .ok (if b then 1 else 0)
  | .pint n => .ok n
  | _ => .error "TypeError"

/-- Python `sum(values)` over dynamic values (starts from `0`; raises on a
non-numeric element). -/
def pySum : List PyVal → Except String Int
  | [] => .ok 0
  | v :: rest => do
    let n ← pyNum v
    let m ← pySum rest
    pure (n + m)

/-- The `ReasonsLike` union: `None`, `int`, `Mapping[str, Any]`, or a
`ReasonCounts` (whose declared field types are `Optional[int]` and
`Optional[Mapping[str, int]]`). -/
inductive ReasonsLike where
  | rnone
  | rint (n : Int)
  | rmap (m : List (String × PyVal))
  | rcounts (total : Option Int) (by_reason : Option (List (String × Int)))

/-- The canonical `ReasonCounts` as `normalize_reasons` actually produces
it: `by_reason` values come straight from the input mapping, so they stay
dynamic. -/
structure ReasonCounts where
  total : Option Int := none
  by_reason : Option (List (String × PyVal)) := none

/-- Python's `a or b` over optional dynamic values: the first truthy
operand, else `b`'s value (falsy-or-missing collapses to `.pnone`). -/
def pyOr (a b : Option PyVal) : PyVal :=
  match a with
  | some v => if v.truthy then v else (b.getD .pnone)
  | none => b.getD .pnone

/-- `normalize_reasons(value)`. Branches in source order: `None`,
`ReasonCounts`, `int`, structured mapping (`total`/`by_reason` keys
present), plain mapping. The plain-mapping branch applies the raw `int()`
coercion to every value and the structured branch may `sum` dynamic
values, so both are fallible. -/
def normalize_reasons (value : ReasonsLike) : Except String ReasonCounts :=
  match value with
  | .rnone => .ok {}
  | .rcounts total by_reason =>
    .ok { total := total,
          by_reason :=
            match by_reason with
            | some l => if l.isEmpty then none else some (l.map (fun kv => (kv.1, .pint kv.2)))
            | none => none }
  | .rint n => .ok { total := some n }
  | .rmap m =>
    if m.any (fun kv => kv.1 = "total" ∨ kv.1 = "by_reason") then
      let total := to_int ((m.lookup "total").getD .pnone)
      let by_ := pyOr (m.lookup "by_reason") (m.lookup "reasons")
      let by_reason : Option (List (String × PyVal)) :=
        match by_ with
        | .pmap entries => some entries
        | _ => none
      match total, by_reason with
      | none, some entries =>
        if !entries.isEmpty then do
          let t ← pySum (entries.map (·.2))
          pure { total := some t, by_reason := by_reason }
        else .ok { total := none, by_reason := by_reason }
      | _, _ => .ok { total := total, by_reason := by_reason }
    else do
      let coerced ← m.mapM (fun kv => do
        let n ← pyIntCoerce kv.2
        pure (kv.1, n))
      pure { total := some ((coerced.map (·.2)).sum),
             by_reason := some (coerced.map (fun kv => (kv.1, .pint kv.2))) }

/-! ### Specification-side definitions and helpers -/

/-- The spec's ordered rule table for the Status Classifier (section 4.1):
substring-marker sets with their bucket tags, highest priority first.
This is the spec-side counterpart that `status_bucket` is proved to
refine. -/
def bucketRules : List (List String × String) :=
  [(["rev_prescreen_excluded"], "prescreen_excluded"),
   (["excluded", "reject"], "fulltext_excluded"),
   (["prescreen", "screened"], "screened"),
   (PDF_NOT_RETRIEVED_STATUSES, "pdf_not_retrieved"),
   (PDF_RETRIEVED_STATUSES, "pdf_retrieved"),
   (["included", "accept", "synth"], "included"),
   (["duplicate", "dedupe"], "duplicate")]

/-- First-match-wins evaluation of the rule table: the tag of the first
rule one of whose markers occurs in the lowered status, else `other`. -/
def firstMatchTag (status : String) : String :=
  ((bucketRules.find? (fun rule => rule.1.any (strContains (pyLower status) ·))).map
    (·.2)).getD "other"

/-- The bucket counters accumulated by the `records_to_status` loop. -/
def bucketsOf (records : List (String × Rec)) : Buckets :=
  (records.foldl aggStep ({}, [])).1

/-- The fulltext-exclusion reason tally accumulated by the
`records_to_status` loop. -/
def tallyOf (records : List (String × Rec)) : List (String × Nat) :=
  (records.foldl aggStep ({}, [])).2

/-- Total of all counts in a reason tally. -/
def dictTotal (d : List (String × Nat)) : Nat :=
  (d.map (·.2)).sum

/-- Total of all counts in the final (optional) reason tally; `none`
(an empty tally) totals zero. -/
def reasonsTotal (o : Option (List (String × Nat))) : Nat :=
  dictTotal (o.getD [])

/-- The `(key, added count)` operations one record performs on the
fulltext-exclusion reason tally: the parsed screening criteria when the
record is in the `fulltext_excluded` bucket and they parse non-empty,
else one count under the stripped fallback reason when that is non-empty,
else nothing (also nothing for records in any other bucket). -/
def recEntries (r : Rec) : List (String × Nat) :=
  if status_bucket (get_status r) = "fulltext_excluded" then
    let parsed := parse_screening_criteria (rget r "screening_criteria")
    if parsed ≠ [] then parsed
    else
      let reason := pyStrip ((rget r "exclusion_reason").getD "")
      if reason ≠ "" then [(reason, 1)] else []
  else []

/-- The total count one record adds to the reason tally. -/
def recContrib (r : Rec) : Nat :=
  ((recEntries r).map (·.2)).sum

/-- All tally operations of a record collection, in iteration order. -/
def entriesOf (records : List (String × Rec)) : List (String × Nat) :=
  records.flatMap (fun e => recEntries e.2)

/-- Number of records of the collection classified into the given
bucket. -/
def bucketCount (records : List (String × Rec)) (tag : String) : Nat :=
  records.countP (fun e => status_bucket (get_status e.2) == tag)

/-- Sum of the counts an operation list adds under one key. -/
def keyTotal (L : List (String × Nat)) (k : String) : Nat :=
  ((L.filter (fun kv => kv.1 == k)).map (·.2)).sum

/-- Whether an operation list ever touches a key. -/
def keyTouched (L : List (String × Nat)) (k : String) : Bool :=
  L.any (fun kv => kv.1 == k)

/-- A record entry is kept by `compute_origin_stats` unless its id is
`md_`-prefixed. -/
def keepRec (e : String × Rec) : Bool :=
  !pyStartsWith e.1 "md_"

/-- The non-empty trimmed origin parts of one record. -/
def originParts (e : String × Rec) : List String :=
  split_origin (rget e.2 "colrev_origin")

/-- The kept (non-`md_`) records. -/
def keptRecords (records : List (String × Rec)) : List (String × Rec) :=
  records.filter keepRec

/-- Total number of origin parts over the kept records. -/
def totalOriginEntries (records : List (String × Rec)) : Nat :=
  ((keptRecords records).map (fun e => (originParts e).length)).sum

/-- Whether some kept record has a non-empty origin value. -/
def hasKeptOrigin (records : List (String × Rec)) : Bool :=
  (keptRecords records).any (fun e => !(originParts e).isEmpty)

/-- Equality of tally dicts as Python `==` sees it: same key/value pairs,
insertion order irrelevant. -/
def dictEquiv (d₁ d₂ : List (String × Nat)) : Prop :=
  ∀ k, d₁.lookup k = d₂.lookup k

/-- `dictEquiv` lifted to the optional `reports_excluded` field. -/
def optionDictEquiv : Option (List (String × Nat)) → Option (List (String × Nat)) → Prop
  | none, none => True
  | some d₁, some d₂ => dictEquiv d₁ d₂
  | _, _ => False

/-- Equality of two `PrismaStatus` values as Python `==` sees it: all
scalar fields equal, and the reason-tally dicts equal as mappings. -/
def statusEquiv (s₁ s₂ : PrismaStatus) : Prop :=
  s₁.databases = s₂.databases ∧ s₁.registers = s₂.registers ∧
  s₁.duplicates = s₂.duplicates ∧ s₁.automation = s₂.automation ∧
  s₁.other_removed = s₂.other_removed ∧ s₁.screened = s₂.screened ∧
  s₁.records_excluded = s₂.records_excluded ∧ s₁.reports_sought = s₂.reports_sought ∧
  s₁.not_retrieved = s₂.not_retrieved ∧ s₁.assessed = s₂.assessed ∧
  s₁.included = s₂.included ∧ s₁.new_reports = s₂.new_reports ∧
  optionDictEquiv s₁.reports_excluded s₂.reports_excluded

end PyPrisma

namespace PyPrisma

/-! ### Helper lemmas: the reason tally -/

/-- One aggregation step bumps the bucket and replays the record's tally
operations. -/
theorem aggStep_eq (st : Buckets × List (String × Nat)) (e : String × Rec) :
    aggStep st e = (st.1.bump (status_bucket (get_status e.2)),
      (recEntries e.2).foldl (fun d kv => dictAdd d kv.1 kv.2) st.2) := by
  unfold aggStep reasonStep recEntries
  split_ifs <;> simp_all <;> split_ifs <;> simp_all

/-- The bucket component of the aggregation fold only ever bumps. -/
theorem foldl_aggStep_fst (l : List (String × Rec)) :
    ∀ st : Buckets × List (String × Nat),
      (l.foldl aggStep st).1 =
        l.foldl (fun b e => b.bump (status_bucket (get_status e.2))) st.1 := by
  induction l with
  | nil => intro st; rfl
  | cons e t ih =>
    intro st
    simp only [List.foldl_cons, ih, aggStep_eq]

/-- The tally component of the aggregation fold replays the concatenated
tally operations of all records. -/
theorem foldl_aggStep_snd (l : List (String × Rec)) :
    ∀ st : Buckets × List (String × Nat),
      (l.foldl aggStep st).2 =
        (l.flatMap (fun e => recEntries e.2)).foldl
          (fun d kv => dictAdd d kv.1 kv.2) st.2 := by
  induction l with
  | nil => intro st; rfl
  | cons e t ih =>
    intro st
    simp only [List.foldl_cons, ih, aggStep_eq, List.flatMap_cons, List.foldl_append]

/-- `dictAdd` increases the tally total by exactly the added count. -/
theorem dictTotal_dictAdd (d : List (String × Nat)) (k : String) (v : Nat) :
    dictTotal (dictAdd d k v) = dictTotal d + v := by
  induction d with
  | nil => simp [dictAdd, dictTotal]
  | cons kv t ih =>
    obtain ⟨k', v'⟩ := kv
    by_cases h : k' = k <;> simp [dictAdd, dictTotal, h] <;>
      simp [dictTotal] at ih <;> omega

/-- Replaying an operation list increases the tally total by the sum of
the added counts. -/
theorem dictTotal_foldl (L : List (String × Nat)) :
    ∀ d : List (String × Nat),
      dictTotal (L.foldl (fun d kv => dictAdd d kv.1 kv.2) d) =
        dictTotal d + (L.map (·.2)).sum := by
  induction L with
  | nil => intro d; simp
  | cons kv t ih =>
    intro d
    simp only [List.foldl_cons, ih, dictTotal_dictAdd, List.map_cons, List.sum_cons]
    omega

/-- The total of the final reason tally is the sum of the per-record
contributions. -/
theorem dictTotal_tallyOf (l : List (String × Rec)) :
    dictTotal (tallyOf l) = (l.map (fun e => recContrib e.2)).sum := by
  rw [tallyOf, foldl_aggStep_snd]
  induction l with
  | nil => rfl
  | cons e t ih =>
    simp only [List.flatMap_cons, List.foldl_append, List.map_cons, List.sum_cons]
    rw [dictTotal_foldl, dictTotal_foldl]
    rw [dictTotal_foldl] at ih
    simp only [recContrib] at *
    omega

/-- The final `reports_excluded` field is the tally, or `none` when the
tally is empty. -/
theorem reports_excluded_def (l : List (String × Rec)) :
    (records_to_status l).reports_excluded =
      if tallyOf l = [] then none else some (tallyOf l) := rfl

/-- The total of `reports_excluded` is the tally total. -/
theorem reasonsTotal_reports_excluded (l : List (String × Rec)) :
    reasonsTotal ((records_to_status l).reports_excluded) = dictTotal (tallyOf l) := by
  rw [reports_excluded_def]
  split_ifs with h <;> simp [reasonsTotal, h]

/-- Records outside the `fulltext_excluded` bucket perform no tally
operations. -/
theorem recEntries_of_not_fulltext (r : Rec)
    (h : status_bucket (get_status r) ≠ "fulltext_excluded") : recEntries r = [] := by
  simp [recEntries, h]

/-- Records outside the `fulltext_excluded` bucket contribute zero. -/
theorem recContrib_of_not_fulltext (r : Rec)
    (h : status_bucket (get_status r) ≠ "fulltext_excluded") : recContrib r = 0 := by
  simp [recContrib, recEntries_of_not_fulltext r h]

/-- Lookup after a single `dictAdd`. -/
theorem lookup_dictAdd (d : List (String × Nat)) (k : String) (v : Nat) (k' : String) :
    (dictAdd d k v).lookup k' =
      if k' = k then some ((d.lookup k').getD 0 + v) else d.lookup k' := by
  induction d with
  | nil =>
    by_cases h : k' = k
    · subst h; simp [dictAdd, List.lookup]
    · have hb : (k' == k) = false := beq_eq_false_iff_ne.mpr h
      simp [dictAdd, List.lookup, hb, h]
  | cons kv t ih =>
    obtain ⟨k₀, v₀⟩ := kv
    by_cases h0 : k₀ = k
    · subst h0
      by_cases h : k' = k₀
      · subst h; simp [dictAdd, List.lookup]
      · have hb : (k' == k₀) = false := beq_eq_false_iff_ne.mpr h
        simp [dictAdd, List.lookup, hb, h]
    · by_cases h : k' = k₀
      · subst h
        simp [dictAdd, h0, List.lookup]
      · have hb : (k' == k₀) = false := beq_eq_false_iff_ne.mpr h
        simp [dictAdd, h0, List.lookup, hb, ih]

/-- Lookup after replaying an operation list: the initial value (if any)
plus everything the list adds under that key; a key never touched stays
absent. -/
theorem lookup_foldl_dictAdd (L : List (String × Nat)) :
    ∀ (d : List (String × Nat)) (k : String),
      (L.foldl (fun d kv => dictAdd d kv.1 kv.2) d).lookup k =
        match d.lookup k with
        | some n => some (n + keyTotal L k)
        | none => if keyTouched L k then some (keyTotal L k) else none := by
  induction L with
  | nil =>
    intro d k
    cases h : d.lookup k <;> simp [keyTotal, keyTouched, h]
  | cons kv t ih =>
    intro d k
    obtain ⟨k₀, v₀⟩ := kv
    simp only [List.foldl_cons]
    rw [ih]
    rw [lookup_dictAdd]
    by_cases hk : k = k₀
    · subst hk
      simp only [if_pos rfl, keyTotal, keyTouched, List.filter_cons, List.any_cons,
        beq_self_eq_true, Bool.true_or, if_pos, List.map_cons, List.sum_cons]
      cases h : d.lookup k <;> simp [h] <;> omega
    · have hne : (k₀ == k) = false := by simp [Ne.symm hk]
      simp only [if_neg hk, keyTotal, keyTouched, List.filter_cons, List.any_cons, hne,
        Bool.false_or, cond_false]
      cases h : d.lookup k <;> simp [h]

/-- `dictAdd` never produces the empty dict. -/
theorem dictAdd_ne_nil (d : List (String × Nat)) (k : String) (v : Nat) :
    dictAdd d k v ≠ [] := by
  cases d with
  | nil => simp [dictAdd]
  | cons kv t => obtain ⟨k', v'⟩ := kv; by_cases h : k' = k <;> simp [dictAdd, h]

/-- Replaying operations yields the empty dict only from an empty start
and an empty operation list. -/
theorem foldl_dictAdd_eq_nil_iff (L : List (String × Nat)) :
    ∀ d : List (String × Nat),
      L.foldl (fun d kv => dictAdd d kv.1 kv.2) d = [] ↔ d = [] ∧ L = [] := by
  induction L with
  | nil => intro d; simp
  | cons kv t ih =>
    intro d
    simp only [List.foldl_cons, ih]
    simp [dictAdd_ne_nil]

/-- The tally is empty exactly when no record performed any operation. -/
theorem tallyOf_eq_nil_iff (l : List (String × Rec)) :
    tallyOf l = [] ↔ entriesOf l = [] := by
  rw [tallyOf, foldl_aggStep_snd, foldl_dictAdd_eq_nil_iff]
  simp [entriesOf]

/-- Lookup in the final tally, characterized by the concatenated
operation list. -/
theorem lookup_tallyOf (l : List (String × Rec)) (k : String) :
    (tallyOf l).lookup k =
      if keyTouched (entriesOf l) k then some (keyTotal (entriesOf l) k) else none := by
  rw [tallyOf, foldl_aggStep_snd, lookup_foldl_dictAdd]
  rfl

/-! ### Helper lemmas: bucket counters -/

/-- Any `Buckets` field accessor that `bump` treats as the counter of one
tag counts exactly the records classified with that tag over the fold. -/
theorem foldl_bump_field (g : Buckets → Nat) (tag : String)
    (hg : ∀ (b : Buckets) (t : String),
      g (Buckets.bump b t) = g b + (if t == tag then 1 else 0)) :
    ∀ (l : List (String × Rec)) (b : Buckets),
      g (l.foldl (fun b e => b.bump (status_bucket (get_status e.2))) b) =
        g b + bucketCount l tag := by
  intro l
  induction l with
  | nil => intro b; simp [bucketCount]
  | cons e t ih =>
    intro b
    simp only [List.foldl_cons, ih, hg, bucketCount, List.countP_cons]
    by_cases h : status_bucket (get_status e.2) = tag <;> simp [bucketCount, h] <;> omega

/-- `bump` and the `screened` counter. -/
theorem bump_screened (b : Buckets) (t : String) :
    (Buckets.bump b t).screened = b.screened + (if t == "screened" then 1 else 0) := by
  unfold Buckets.bump
  split_ifs <;> simp_all

/-- `bump` and the `prescreen_excluded` counter. -/
theorem bump_prescreen_excluded (b : Buckets) (t : String) :
    (Buckets.bump b t).prescreen_excluded =
      b.prescreen_excluded + (if t == "prescreen_excluded" then 1 else 0) := by
  unfold Buckets.bump
  split_ifs <;> simp_all

/-- `bump` and the `fulltext_excluded` counter. -/
theorem bump_fulltext_excluded (b : Buckets) (t : String) :
    (Buckets.bump b t).fulltext_excluded =
      b.fulltext_excluded + (if t == "fulltext_excluded" then 1 else 0) := by
  unfold Buckets.bump
  split_ifs <;> simp_all

/-- `bump` and the `pdf_not_retrieved` counter. -/
theorem bump_pdf_not_retrieved (b : Buckets) (t : String) :
    (Buckets.bump b t).pdf_not_retrieved =
      b.pdf_not_retrieved + (if t == "pdf_not_retrieved" then 1 else 0) := by
  unfold Buckets.bump
  split_ifs <;> simp_all

/-- `bump` and the `pdf_retrieved` counter. -/
theorem bump_pdf_retrieved (b : Buckets) (t : String) :
    (Buckets.bump b t).pdf_retrieved =
      b.pdf_retrieved + (if t == "pdf_retrieved" then 1 else 0) := by
  unfold Buckets.bump
  split_ifs <;> simp_all

/-- `bump` and the `included` counter. -/
theorem bump_included (b : Buckets) (t : String) :
    (Buckets.bump b t).included = b.included + (if t == "included" then 1 else 0) := by
  unfold Buckets.bump
  split_ifs <;> simp_all

/-! ### Helper lemmas: origin statistics -/

/-- The origin loop computes the origin-part total, the kept-record count
and the any-origin flag. -/
theorem foldl_originStep (l : List (String × Rec)) :
    ∀ (t k : Int) (a : Bool),
      l.foldl originStep (t, k, a) =
        (t + totalOriginEntries l, k + (keptRecords l).length, a || hasKeptOrigin l) := by
  induction l with
  | nil =>
    intro t k a
    simp [totalOriginEntries, keptRecords, hasKeptOrigin]
  | cons e rest ih =>
    intro t k a
    by_cases hkeep : keepRec e = true
    · have hmd : pyStartsWith e.1 "md_" = false := by
        simpa [keepRec] using hkeep
      have hstep : originStep (t, k, a) e =
          (t + ((split_origin (rget e.2 "colrev_origin")).length : Int), k + 1,
           a || !(split_origin (rget e.2 "colrev_origin")).isEmpty) := by
        by_cases hp : split_origin (rget e.2 "colrev_origin") = [] <;>
          simp [originStep, hmd, hp]
      have h1 : keptRecords (e :: rest) = e :: keptRecords rest := by
        simp [keptRecords, List.filter_cons, hkeep]
      have h2 : totalOriginEntries (e :: rest) =
          (split_origin (rget e.2 "colrev_origin")).length + totalOriginEntries rest := by
        simp [totalOriginEntries, h1, originParts]
      have h3 : hasKeptOrigin (e :: rest) =
          (!(split_origin (rget e.2 "colrev_origin")).isEmpty || hasKeptOrigin rest) := by
        simp [hasKeptOrigin, h1, originParts]
      have h4 : (keptRecords (e :: rest)).length = (keptRecords rest).length + 1 := by
        rw [h1, List.length_cons]
      simp only [List.foldl_cons, hstep, ih, h2, h3, h4]
      refine Prod.ext ?_ (Prod.ext ?_ ?_)
      · push_cast; ring
      · push_cast; ring
      · rw [Bool.or_assoc]
    · have hmd : pyStartsWith e.1 "md_" = true := by
        simpa [keepRec] using hkeep
      have hstep : originStep (t, k, a) e = (t, k, a) := by
        simp [originStep, hmd]
      have h1 : keptRecords (e :: rest) = keptRecords rest := by
        simp [keptRecords, List.filter_cons, hkeep]
      simp only [List.foldl_cons, hstep, ih, totalOriginEntries, hasKeptOrigin, h1]

/-- `compute_origin_stats`, characterized: `(none, none)` when no kept
record has an origin, else the origin total and the clamped difference
with the kept-record count. -/
theorem compute_origin_stats_spec (l : List (String × Rec)) :
    compute_origin_stats l =
      if hasKeptOrigin l then
        (some ((totalOriginEntries l : Int)),
         some (max 0 ((totalOriginEntries l : Int) - (keptRecords l).length)))
      else (none, none) := by
  simp only [compute_origin_stats, foldl_originStep]
  cases h : hasKeptOrigin l <;> simp [h]

/-! ### Helper lemmas: permutation invariance -/

/-- Bucket counts are invariant under permutation of the records. -/
theorem bucketCount_perm {l₁ l₂ : List (String × Rec)} (h : l₁.Perm l₂) (tag : String) :
    bucketCount l₁ tag = bucketCount l₂ tag :=
  h.countP_eq _

/-- The concatenated tally-operation lists of permuted collections are
permutations of each other. -/
theorem entriesOf_perm {l₁ l₂ : List (String × Rec)} (h : l₁.Perm l₂) :
    (entriesOf l₁).Perm (entriesOf l₂) :=
  h.flatMap_right _

/-- Per-key totals are invariant under permutation of the operations. -/
theorem keyTotal_perm {L₁ L₂ : List (String × Nat)} (h : L₁.Perm L₂) (k : String) :
    keyTotal L₁ k = keyTotal L₂ k :=
  ((h.filter _).map _).sum_eq

/-- Key presence is invariant under permutation of the operations. -/
theorem keyTouched_perm {L₁ L₂ : List (String × Nat)} (h : L₁.Perm L₂) (k : String) :
    keyTouched L₁ k = keyTouched L₂ k := by
  unfold keyTouched
  cases hb : L₂.any (fun kv => kv.1 == k) with
  | true =>
    rw [List.any_eq_true] at hb ⊢
    obtain ⟨x, hx, hpx⟩ := hb
    exact ⟨x, h.mem_iff.mpr hx, hpx⟩
  | false =>
    rw [List.any_eq_false] at hb ⊢
    exact fun x hx => hb x (h.mem_iff.mp hx)

/-- The origin-part total is invariant under permutation. -/
theorem totalOriginEntries_perm {l₁ l₂ : List (String × Rec)} (h : l₁.Perm l₂) :
    totalOriginEntries l₁ = totalOriginEntries l₂ :=
  ((h.filter keepRec).map _).sum_eq

/-- The kept-record count is invariant under permutation. -/
theorem keptRecords_length_perm {l₁ l₂ : List (String × Rec)} (h : l₁.Perm l₂) :
    (keptRecords l₁).length = (keptRecords l₂).length :=
  (h.filter keepRec).length_eq

/-- The any-kept-origin flag is invariant under permutation. -/
theorem hasKeptOrigin_perm {l₁ l₂ : List (String × Rec)} (h : l₁.Perm l₂) :
    hasKeptOrigin l₁ = hasKeptOrigin l₂ := by
  unfold hasKeptOrigin keptRecords
  cases hb : (l₂.filter keepRec).any (fun e => !(originParts e).isEmpty) with
  | true =>
    rw [List.any_eq_true] at hb ⊢
    obtain ⟨x, hx, hpx⟩ := hb
    exact ⟨x, (h.filter keepRec).mem_iff.mpr hx, hpx⟩
  | false =>
    rw [List.any_eq_false] at hb ⊢
    exact fun x hx => hb x ((h.filter keepRec).mem_iff.mp hx)

/-! ### Helper lemmas: clean single-entry parsing -/

/-- `dropWhile` is the identity when no element satisfies the predicate. -/
theorem dropWhile_eq_self_of_all (p : Char → Bool) (l : List Char)
    (h : l.all (fun c => !p c) = true) : l.dropWhile p = l := by
  cases l with
  | nil => rfl
  | cons c cs =>
    simp only [List.all_cons, Bool.and_eq_true, Bool.not_eq_true'] at h
    simp [List.dropWhile_cons, h.1]

/-- Trimming is the identity when no character satisfies the predicate. -/
theorem trimCharsBy_eq_self (p : Char → Bool) (l : List Char)
    (h : l.all (fun c => !p c) = true) : trimCharsBy p l = l := by
  unfold trimCharsBy
  rw [dropWhile_eq_self_of_all p l h, dropWhile_eq_self_of_all p l.reverse (by
    rw [List.all_eq_true] at h ⊢
    intro c hc
    exact h c (List.mem_reverse.mp hc)), List.reverse_reverse]

/-- `pyStrip` is the identity on whitespace-free strings. -/
theorem pyStrip_eq_self (s : String)
    (h : s.data.all (fun c => !c.isWhitespace) = true) : pyStrip s = s := by
  unfold pyStrip
  rw [trimCharsBy_eq_self _ _ h]

/-- `pyStripSet` is the identity when none of the characters occur. -/
theorem pyStripSet_eq_self (s : String) (cs : List Char)
    (h : s.data.all (fun c => !cs.contains c) = true) : pyStripSet s cs = s := by
  unfold pyStripSet
  rw [trimCharsBy_eq_self _ _ h]

/-- `replaceChar` is the identity when the old character does not occur. -/
theorem replaceChar_eq_self (old new : Char) (s : String)
    (h : s.data.all (fun c => c != old) = true) : replaceChar old new s = s := by
  unfold replaceChar
  have : s.data.map (fun c => if c = old then new else c) = s.data := by
    rw [List.all_eq_true] at h
    calc s.data.map (fun c => if c = old then new else c)
        = s.data.map id := List.map_congr_left (fun a ha => by
          have := h a ha
          rw [bne_iff_ne] at this
          simp [this])
      _ = s.data := List.map_id s.data
  rw [this]

/-- Splitting on an absent separator yields the single whole piece. -/
theorem splitChar_eq_single (sep : Char) (l : List Char)
    (h : l.all (fun c => c != sep) = true) : splitChar sep l = [l] := by
  induction l with
  | nil => rfl
  | cons c cs ih =>
    simp only [List.all_cons, Bool.and_eq_true] at h
    have hc : ¬c = sep := by
      have := h.1
      rwa [bne_iff_ne] at this
    have hrest : splitChar sep cs = [cs] := ih h.2
    simp [splitChar, hc, hrest]

/-- The first `sep`-split of `xs ++ sep :: ys` with `sep` absent from
`xs`. -/
theorem splitFirst_of_append (sep : Char) (xs ys : List Char)
    (h : xs.all (fun c => c != sep) = true) :
    splitFirst sep (xs ++ sep :: ys) = some (xs, ys) := by
  induction xs with
  | nil => simp [splitFirst]
  | cons x t ih =>
    simp only [List.all_cons, Bool.and_eq_true] at h
    have hx : ¬x = sep := by
      have := h.1
      rwa [bne_iff_ne] at this
    simp [splitFirst, hx, ih h.2]

/-- Characters allowed in a clean criteria key or value: no whitespace
and none of the parser's structural characters. -/
def cleanChar (c : Char) : Bool :=
  !c.isWhitespace && !(['{', '}', ',', ';', '='].contains c)

/-- Parsing a single clean `key=value` entry: the key is kept verbatim
and the trimmed case-folded value selects the flag through the two
vocabularies (quotes or braces inside the value are NOT stripped — such a
value simply fails the vocabulary test). -/
theorem parse_screening_criteria_single (k v : String)
    (hk : k.data.all cleanChar = true) (hv : v.data.all cleanChar = true) :
    parse_screening_criteria (some (k ++ "=" ++ v)) =
      if out_vals.contains (pyLower v) = true then [(k, 1)]
      else if in_vals.contains (pyLower v) = true then [(k, 0)] else [] := by
  have hdata : (k ++ "=" ++ v).data = k.data ++ '=' :: v.data := by
    simp [String.data_append]
  have hclean : ∀ c : Char, cleanChar c = true →
      c.isWhitespace = false ∧ ¬c = '{' ∧ ¬c = '}' ∧ ¬c = ',' ∧ ¬c = ';' ∧ ¬c = '=' := by
    intro c hc
    simp only [cleanChar, Bool.and_eq_true, Bool.not_eq_true'] at hc
    have hnm : ¬c ∈ ['{', '}', ',', ';', '='] := by
      simpa using hc.2
    exact ⟨hc.1, fun h => hnm (by simp [h]), fun h => hnm (by simp [h]),
      fun h => hnm (by simp [h]), fun h => hnm (by simp [h]), fun h => hnm (by simp [h])⟩
  have hmem : ∀ c ∈ (k ++ "=" ++ v).data,
      c.isWhitespace = false ∧ ¬c = '{' ∧ ¬c = '}' ∧ ¬c = ',' ∧ ¬c = ';' := by
    rw [hdata]
    intro c hc
    rcases List.mem_append.mp hc with hck | hcv
    · have h := hclean c (List.all_eq_true.mp hk c hck)
      exact ⟨h.1, h.2.1, h.2.2.1, h.2.2.2.1, h.2.2.2.2.1⟩
    · rcases List.mem_cons.mp hcv with hce | hcv'
      · subst hce
        refine ⟨by decide, by decide, by decide, by decide, by decide⟩
      · have h := hclean c (List.all_eq_true.mp hv c hcv')
        exact ⟨h.1, h.2.1, h.2.2.1, h.2.2.2.1, h.2.2.2.2.1⟩
  have hne : ¬(k ++ "=" ++ v) = "" := by
    intro hc
    have := congrArg String.data hc
    rw [hdata] at this
    simp at this
  have h1 : pyStrip (k ++ "=" ++ v) = k ++ "=" ++ v := by
    apply pyStrip_eq_self
    rw [List.all_eq_true]
    intro c hc
    simp [(hmem c hc).1]
  have h2 : pyStripSet (k ++ "=" ++ v) ['{', '}'] = k ++ "=" ++ v := by
    apply pyStripSet_eq_self
    rw [List.all_eq_true]
    intro c hc
    obtain ⟨-, hb1, hb2, -, -⟩ := hmem c hc
    simp [hb1, hb2]
  have h3 : replaceChar ';' ',' (k ++ "=" ++ v) = k ++ "=" ++ v := by
    apply replaceChar_eq_self
    rw [List.all_eq_true]
    intro c hc
    obtain ⟨-, -, -, -, hs⟩ := hmem c hc
    simpa using hs
  have h4 : splitChar ',' (k ++ "=" ++ v).data = [(k ++ "=" ++ v).data] := by
    apply splitChar_eq_single
    rw [List.all_eq_true]
    intro c hc
    obtain ⟨-, -, -, hcm, -⟩ := hmem c hc
    simpa using hcm
  have h5 : splitFirst '=' (k ++ "=" ++ v).data = some (k.data, v.data) := by
    rw [hdata]
    apply splitFirst_of_append
    rw [List.all_eq_true]
    intro c hc
    have h6 := (hclean c (List.all_eq_true.mp hk c hc)).2.2.2.2.2
    simpa using h6
  have hkw : k.data.all (fun c => !c.isWhitespace) = true := by
    rw [List.all_eq_true]
    intro c hc
    simp [(hclean c (List.all_eq_true.mp hk c hc)).1]
  have hvw : v.data.all (fun c => !c.isWhitespace) = true := by
    rw [List.all_eq_true]
    intro c hc
    simp [(hclean c (List.all_eq_true.mp hv c hc)).1]
  have h6 : pyStrip ⟨k.data⟩ = k := pyStrip_eq_self k hkw
  have h7 : pyStrip ⟨v.data⟩ = v := pyStrip_eq_self v hvw
  show (if (k ++ "=" ++ v) = "" then []
    else
      let s := pyStripSet (pyStrip (k ++ "=" ++ v)) ['{', '}']
      let parts := splitChar ',' (replaceChar ';' ',' s).data
      parts.foldl (fun result part =>
        match splitFirst '=' part with
        | some kv => criteriaEntry result kv
        | none =>
          match splitFirst ':' part with
          | some kv => criteriaEntry result kv
          | none => result) []) = _
  rw [if_neg hne]
  simp only [h1, h2, h3, h4, List.foldl_cons, List.foldl_nil, h5]
  show criteriaEntry [] (k.data, v.data) = _
  unfold criteriaEntry
  simp only [h6, h7]
  split_ifs <;> simp_all [dictSet]

/-! ### Helper lemmas: contribution sums vs the fulltext bucket -/

/-- With at most one reason per record, the total contribution is bounded
by the number of `fulltext_excluded` records. -/
theorem sum_contrib_le (l : List (String × Rec))
    (h : ∀ e ∈ l, recContrib e.2 ≤ 1) :
    (l.map (fun e => recContrib e.2)).sum ≤ bucketCount l "fulltext_excluded" := by
  induction l with
  | nil => simp [bucketCount]
  | cons e t ih =>
    have ht := ih (fun x hx => h x (List.mem_cons_of_mem e hx))
    have he := h e (List.mem_cons_self e t)
    simp only [List.map_cons, List.sum_cons, bucketCount, List.countP_cons] at *
    by_cases hb : status_bucket (get_status e.2) = "fulltext_excluded"
    · simp only [hb, beq_self_eq_true, if_pos]
      omega
    · have hz := recContrib_of_not_fulltext e.2 hb
      have hbeq : (status_bucket (get_status e.2) == "fulltext_excluded") = false :=
        beq_eq_false_iff_ne.mpr hb
      simp only [hbeq, if_neg, Bool.false_eq_true, not_false_eq_true, hz]
      omega

/-- With exactly one reason per `fulltext_excluded` record, the total
contribution equals the number of `fulltext_excluded` records. -/
theorem sum_contrib_eq (l : List (String × Rec))
    (h : ∀ e ∈ l, status_bucket (get_status e.2) = "fulltext_excluded" →
      recContrib e.2 = 1) :
    (l.map (fun e => recContrib e.2)).sum = bucketCount l "fulltext_excluded" := by
  induction l with
  | nil => simp [bucketCount]
  | cons e t ih =>
    have ht := ih (fun x hx => h x (List.mem_cons_of_mem e hx))
    simp only [List.map_cons, List.sum_cons, bucketCount, List.countP_cons] at *
    by_cases hb : status_bucket (get_status e.2) = "fulltext_excluded"
    · have he := h e (List.mem_cons_self e t) hb
      simp only [hb, beq_self_eq_true, if_pos, he]
      omega
    · have hz := recContrib_of_not_fulltext e.2 hb
      have hbeq : (status_bucket (get_status e.2) == "fulltext_excluded") = false :=
        beq_eq_false_iff_ne.mpr hb
      simp only [hbeq, if_neg, Bool.false_eq_true, not_false_eq_true, hz]
      omega

end PyPrisma

open PyPrisma

/-! ## Claim theorems -/

/-- C1: `status_bucket` refines the spec's ordered rule table with first
match winning (it equals `firstMatchTag`, the first-match evaluation of
the table, with default `other`); it always returns a tag from the closed
eight-element set; and any status containing the `rev_prescreen_excluded`
marker is classified `prescreen_excluded` regardless of the other rules —
in particular `status_bucket "rev_prescreen_excluded" =
"prescreen_excluded"`. -/
theorem status_bucket_closed_set_and_priority :
    (∀ s, status_bucket s = firstMatchTag s) ∧
    (∀ s, status_bucket s ∈ bucketTags) ∧
    (∀ s, strContains (pyLower s) "rev_prescreen_excluded" = true →
      status_bucket s = "prescreen_excluded") ∧
    status_bucket "rev_prescreen_excluded" = "prescreen_excluded" := by
  refine ⟨fun s => ?_, fun s => ?_, fun s h => ?_, by decide⟩
  · unfold status_bucket firstMatchTag bucketRules
      PDF_NOT_RETRIEVED_STATUSES PDF_RETRIEVED_STATUSES
    simp only [List.find?, List.any_cons, List.any_nil, Bool.or_false]
    split_ifs <;>
      simp_all only [Bool.not_eq_true, Option.map_some', Option.map_none',
        Option.getD_some, Option.getD_none]
  · simp only [status_bucket]
    split_ifs <;> simp [bucketTags]
  · simp [status_bucket, h]

/-- Witness for C1: the priority implication applied to a status string
that contains the prescreen marker together with markers of lower-priority
rules. -/
theorem status_bucket_closed_set_and_priority_witness :
    status_bucket "rev_prescreen_excluded_and_screened" = "prescreen_excluded" :=
  status_bucket_closed_set_and_priority.2.2.1 "rev_prescreen_excluded_and_screened" (by decide)

/-- C2: the four-record end-to-end example — statuses
`rev_prescreen_excluded`, `pdf_prepared`, `rev_included`, `rev_included`
give `screened = 4`, `records_excluded = 1`, `reports_sought = 3`,
`assessed = 3`, `included = 2`. -/
theorem records_to_status_end_to_end_example :
    (records_to_status
      [("r1", [("colrev_status", "rev_prescreen_excluded")]),
       ("r2", [("colrev_status", "pdf_prepared")]),
       ("r3", [("colrev_status", "rev_included")]),
       ("r4", [("colrev_status", "rev_included")])]).screened = some 4 ∧
    (records_to_status
      [("r1", [("colrev_status", "rev_prescreen_excluded")]),
       ("r2", [("colrev_status", "pdf_prepared")]),
       ("r3", [("colrev_status", "rev_included")]),
       ("r4", [("colrev_status", "rev_included")])]).records_excluded = some 1 ∧
    (records_to_status
      [("r1", [("colrev_status", "rev_prescreen_excluded")]),
       ("r2", [("colrev_status", "pdf_prepared")]),
       ("r3", [("colrev_status", "rev_included")]),
       ("r4", [("colrev_status", "rev_included")])]).reports_sought = some 3 ∧
    (records_to_status
      [("r1", [("colrev_status", "rev_prescreen_excluded")]),
       ("r2", [("colrev_status", "pdf_prepared")]),
       ("r3", [("colrev_status", "rev_included")]),
       ("r4", [("colrev_status", "rev_included")])]).assessed = some 3 ∧
    (records_to_status
      [("r1", [("colrev_status", "rev_prescreen_excluded")]),
       ("r2", [("colrev_status", "pdf_prepared")]),
       ("r3", [("colrev_status", "rev_included")]),
       ("r4", [("colrev_status", "rev_included")])]).included = some 2 := by
  decide

/-- C3: for every record collection, `screened` is the sum of the
`screened`, `prescreen_excluded`, `pdf_not_retrieved`, `pdf_retrieved`
and `included` bucket counts, `records_excluded` is the
`prescreen_excluded` bucket count, `assessed` is `pdf_retrieved +
included`, and `reports_sought = screened − records_excluded` exactly. -/
theorem records_to_status_reports_sought_identity (records : List (String × Rec)) :
    (records_to_status records).screened =
      some (((bucketsOf records).screened : Int) + (bucketsOf records).prescreen_excluded
        + (bucketsOf records).pdf_not_retrieved + (bucketsOf records).pdf_retrieved
        + (bucketsOf records).included) ∧
    (records_to_status records).records_excluded =
      some ((bucketsOf records).prescreen_excluded : Int) ∧
    (records_to_status records).assessed =
      some (((bucketsOf records).pdf_retrieved : Int) + (bucketsOf records).included) ∧
    ∀ a b : Int, (records_to_status records).screened = some a →
      (records_to_status records).records_excluded = some b →
      (records_to_status records).reports_sought = some (a - b) := by
  refine ⟨rfl, rfl, rfl, fun a b ha hb => ?_⟩
  have ha' := Option.some.inj ha
  have hb' := Option.some.inj hb
  rw [← ha', ← hb']
  rfl

/-- Witness for C3: the identity instantiated on the four-record example
(screened 4, excluded 1, sought 3). -/
theorem records_to_status_reports_sought_identity_witness :
    (records_to_status
      [("r1", [("colrev_status", "rev_prescreen_excluded")]),
       ("r2", [("colrev_status", "pdf_prepared")]),
       ("r3", [("colrev_status", "rev_included")]),
       ("r4", [("colrev_status", "rev_included")])]).reports_sought = some (4 - 1) :=
  (records_to_status_reports_sought_identity
    [("r1", [("colrev_status", "rev_prescreen_excluded")]),
     ("r2", [("colrev_status", "pdf_prepared")]),
     ("r3", [("colrev_status", "rev_included")]),
     ("r4", [("colrev_status", "rev_included")])]).2.2.2 4 1 (by decide) (by decide)

/-- C4 counterexample: a single `fulltext_excluded` record whose
screening criteria carry two out-valued entries (`{a=out;b=out}`) makes
the tally total 2 while the bucket holds 1 record, so the claimed bound
"tally sum ≤ bucket count" fails (and with it the claimed equality, since
this record does have non-empty criteria). -/
theorem reason_tally_exceeds_bucket_counterexample :
    reasonsTotal ((records_to_status
      [("r1", [("colrev_status", "rev_excluded"),
               ("screening_criteria", "{a=out;b=out}")])]).reports_excluded) = 2 ∧
    (bucketsOf [("r1", [("colrev_status", "rev_excluded"),
                        ("screening_criteria", "{a=out;b=out}")])]).fulltext_excluded = 1 ∧
    ¬(reasonsTotal ((records_to_status
        [("r1", [("colrev_status", "rev_excluded"),
                 ("screening_criteria", "{a=out;b=out}")])]).reports_excluded) ≤
      (bucketsOf [("r1", [("colrev_status", "rev_excluded"),
                          ("screening_criteria", "{a=out;b=out}")])]).fulltext_excluded) := by
  refine ⟨?_, ?_, ?_⟩ <;> decide

/-- C4 (amended): the tally total equals the sum of the per-record
contributions (a `fulltext_excluded` record contributes the total of its
parsed out-flags when criteria parse non-empty, else 1 when the fallback
reason is non-empty, else 0; other records contribute nothing); so it is
bounded by the `fulltext_excluded` bucket count whenever every record
contributes at most one, with equality when every `fulltext_excluded`
record contributes exactly one. -/
theorem reason_tally_totals (records : List (String × Rec)) :
    reasonsTotal ((records_to_status records).reports_excluded) =
      (records.map (fun e => recContrib e.2)).sum ∧
    ((∀ e ∈ records, recContrib e.2 ≤ 1) →
      reasonsTotal ((records_to_status records).reports_excluded) ≤
        (bucketsOf records).fulltext_excluded) ∧
    ((∀ e ∈ records, status_bucket (get_status e.2) = "fulltext_excluded" →
        recContrib e.2 = 1) →
      reasonsTotal ((records_to_status records).reports_excluded) =
        (bucketsOf records).fulltext_excluded) := by
  have h0 : reasonsTotal ((records_to_status records).reports_excluded) =
      (records.map (fun e => recContrib e.2)).sum := by
    rw [reasonsTotal_reports_excluded, dictTotal_tallyOf]
  have hcount : (bucketsOf records).fulltext_excluded =
      bucketCount records "fulltext_excluded" := by
    rw [bucketsOf, foldl_aggStep_fst]
    rw [foldl_bump_field (fun b => b.fulltext_excluded) "fulltext_excluded"
      bump_fulltext_excluded]
    simp
  exact ⟨h0,
    fun h => by rw [h0, hcount]; exact sum_contrib_le records h,
    fun h => by rw [h0, hcount]; exact sum_contrib_eq records h⟩

/-- Witness for C4 (amended): one `fulltext_excluded` record with a
single out-valued criterion makes the tally total equal the bucket
count. -/
theorem reason_tally_totals_witness :
    reasonsTotal ((records_to_status
      [("r1", [("colrev_status", "rev_excluded"),
               ("screening_criteria", "{bias=out}")])]).reports_excluded) =
    (bucketsOf [("r1", [("colrev_status", "rev_excluded"),
                        ("screening_criteria", "{bias=out}")])]).fulltext_excluded :=
  (reason_tally_totals
    [("r1", [("colrev_status", "rev_excluded"),
             ("screening_criteria", "{bias=out}")])]).2.2 (by decide)

/-- C6 counterexample: a collection whose only record is `md_`-prefixed
but carries an origin value still yields `(None, None)`, refuting the
claimed "only if no record in the whole input collection has any origin
value". -/
theorem compute_origin_stats_md_origin_counterexample :
    split_origin (rget [("colrev_origin", "a")] "colrev_origin") ≠ [] ∧
    compute_origin_stats [("md_x", [("colrev_origin", "a")])] = (none, none) := by
  exact ⟨by decide, by decide⟩

/-- C6 (amended): `compute_origin_stats` returns `(None, None)` iff no
record KEPT by the `md_` prefix filter has a non-empty origin value; and
the result is always either `(None, None)` or a pair of integers. -/
theorem compute_origin_stats_none_iff (records : List (String × Rec)) :
    (compute_origin_stats records = (none, none) ↔
      ∀ e ∈ records, pyStartsWith e.1 "md_" = true ∨
        split_origin (rget e.2 "colrev_origin") = []) ∧
    (compute_origin_stats records = (none, none) ∨
      ∃ a b : Int, compute_origin_stats records = (some a, some b)) := by
  rw [compute_origin_stats_spec]
  by_cases h : hasKeptOrigin records = true
  · rw [if_pos h]
    constructor
    · constructor
      · intro hc
        exact absurd hc (by simp)
      · intro hall
        exfalso
        rw [hasKeptOrigin, List.any_eq_true] at h
        obtain ⟨e, he, hp⟩ := h
        rw [keptRecords, List.mem_filter] at he
        rcases hall e he.1 with hmd | hparts
        · rw [keepRec, hmd] at he
          simp at he
        · simp [originParts, hparts] at hp
    · exact Or.inr ⟨_, _, rfl⟩
  · have h' : hasKeptOrigin records = false := by simpa using h
    rw [if_neg h]
    refine ⟨⟨fun _ => ?_, fun _ => rfl⟩, Or.inl rfl⟩
    intro e he
    by_cases hk : keepRec e = true
    · refine Or.inr ?_
      rw [hasKeptOrigin, List.any_eq_false] at h'
      have := h' e (List.mem_filter.mpr ⟨he, hk⟩)
      simpa [originParts] using this
    · refine Or.inl ?_
      rw [keepRec] at hk
      simpa using hk

/-- Witness for C6 (amended): a collection with no origin values at all
yields `(None, None)`. -/
theorem compute_origin_stats_none_iff_witness :
    compute_origin_stats [("r1", [("title", "t")])] = (none, none) :=
  (compute_origin_stats_none_iff [("r1", [("title", "t")])]).1.mpr (by decide)

/-- C7 counterexample: a collection whose only record is `md_`-prefixed
but has an origin value satisfies the claim's "some record has an origin
value", yet the result is `(None, None)` — not the claimed integer totals
(which here would be `(0, 0)`). -/
theorem compute_origin_stats_totals_counterexample :
    split_origin (rget [("colrev_origin", "b")] "colrev_origin") ≠ [] ∧
    compute_origin_stats [("md_y", [("colrev_origin", "b")])] = (none, none) ∧
    compute_origin_stats [("md_y", [("colrev_origin", "b")])]
      ≠ (some ((0 : Int)), some ((0 : Int))) := by
  exact ⟨by decide, by decide, by decide⟩

/-- C7 (amended): whenever some KEPT (non-`md_`) record has an origin
value, `compute_origin_stats` returns the total number of non-empty
trimmed origin parts over the kept records, and
`max 0 (total − #kept records)`. -/
theorem compute_origin_stats_totals (records : List (String × Rec))
    (h : hasKeptOrigin records = true) :
    compute_origin_stats records =
      (some ((totalOriginEntries records : Int)),
       some (max 0 ((totalOriginEntries records : Int) - (keptRecords records).length))) := by
  rw [compute_origin_stats_spec, if_pos h]

/-- Witness for C7 (amended): the spec's example `{"r1": {"colrev_origin":
"a;b"}, "r2": {"colrev_origin": "c"}}` gives `(3, 1)`. -/
theorem compute_origin_stats_totals_witness :
    compute_origin_stats
      [("r1", [("colrev_origin", "a;b")]), ("r2", [("colrev_origin", "c")])]
      = (some 3, some 1) := by
  have h := compute_origin_stats_totals
    [("r1", [("colrev_origin", "a;b")]), ("r2", [("colrev_origin", "c")])] (by decide)
  rw [h]
  decide

/-- C5 (code behavior at the failing input): `normalize_reasons` applied
to the `Mapping[str, Any]` member `{"a": "x"}` of the `ReasonsLike` union
raises (`int("x")` in the plain-mapping dict comprehension), contradicting
the spec's "this function never fails". -/
theorem normalize_reasons_raises_on_nonint_mapping_value :
    normalize_reasons (.rmap [("a", .pstr "x")]) = .error "ValueError" := rfl

/-- C8 counterexample: for the entry `a="out"` the quote-stripped,
case-folded value is in the out-vocabulary, yet the parser emits no entry
— values are not quote-stripped, so the claimed mapping rule fails. -/
theorem parse_screening_criteria_quotes_counterexample :
    out_vals.contains (pyLower (pyStripSet (pyStrip "\"out\"") ['"'])) = true ∧
    parse_screening_criteria (some "a=\"out\"") = [] := by
  exact ⟨by decide, by decide⟩

/-- C8 (amended): a clean single `key=value` entry maps to flag 1 when
the whitespace-trimmed case-folded value is in the out-vocabulary, to 0
when in the in-vocabulary, and to no entry otherwise (values are NOT
quote- or brace-stripped); `key:value` works likewise for the
vocabularies; the spec's example parses to
`{"non-empirical": 0, "bias": 1}`; empty or missing input yields the
empty mapping. -/
theorem parse_screening_criteria_vocab :
    (∀ k v : String, k.data.all cleanChar = true → v.data.all cleanChar = true →
      parse_screening_criteria (some (k ++ "=" ++ v)) =
        if out_vals.contains (pyLower v) = true then [(k, 1)]
        else if in_vals.contains (pyLower v) = true then [(k, 0)] else []) ∧
    (∀ v ∈ out_vals, parse_screening_criteria (some ("crit:" ++ v)) = [("crit", 1)]) ∧
    (∀ v ∈ in_vals, parse_screening_criteria (some ("crit:" ++ v)) = [("crit", 0)]) ∧
    parse_screening_criteria (some "{non-empirical=in;bias=out}")
      = [("non-empirical", 0), ("bias", 1)] ∧
    parse_screening_criteria none = [] ∧
    parse_screening_criteria (some "") = [] ∧
    parse_screening_criteria (some "crit=maybe") = [] := by
  refine ⟨parse_screening_criteria_single, ?_, ?_, by decide, rfl, rfl, by decide⟩ <;>
    (intro v hv; fin_cases hv <;> decide)

/-- Witness for C8 (amended): the general entry rule applied to
`bias=out` yields the excluded flag. -/
theorem parse_screening_criteria_vocab_witness :
    parse_screening_criteria (some ("bias" ++ "=" ++ "out")) = [("bias", 1)] := by
  have h := parse_screening_criteria_vocab.1 "bias" "out" (by decide) (by decide)
  rw [h]
  decide

/-- C9: `records_to_status` is insensitive to the iteration order of the
record collection: permuted collections produce `PrismaStatus` values
that are equal as Python sees them (all scalar fields equal, reason-tally
dicts equal as mappings — the tally's key insertion order may differ, but
Python dict equality ignores it). -/
theorem records_to_status_perm_invariant (l₁ l₂ : List (String × Rec))
    (h : l₁.Perm l₂) :
    statusEquiv (records_to_status l₁) (records_to_status l₂) := by
  have hfield : ∀ (g : Buckets → Nat) (tag : String),
      (∀ (b : Buckets) (t : String),
        g (Buckets.bump b t) = g b + (if t == tag then 1 else 0)) →
      g (bucketsOf l₁) = g (bucketsOf l₂) := by
    intro g tag hg
    rw [bucketsOf, bucketsOf, foldl_aggStep_fst, foldl_aggStep_fst,
      foldl_bump_field g tag hg, foldl_bump_field g tag hg, bucketCount_perm h tag]
  have hscr : (bucketsOf l₁).screened = (bucketsOf l₂).screened :=
    hfield _ "screened" bump_screened
  have hpe : (bucketsOf l₁).prescreen_excluded = (bucketsOf l₂).prescreen_excluded :=
    hfield _ "prescreen_excluded" bump_prescreen_excluded
  have hpnr : (bucketsOf l₁).pdf_not_retrieved = (bucketsOf l₂).pdf_not_retrieved :=
    hfield _ "pdf_not_retrieved" bump_pdf_not_retrieved
  have hpr : (bucketsOf l₁).pdf_retrieved = (bucketsOf l₂).pdf_retrieved :=
    hfield _ "pdf_retrieved" bump_pdf_retrieved
  have hinc : (bucketsOf l₁).included = (bucketsOf l₂).included :=
    hfield _ "included" bump_included
  have horigin : compute_origin_stats l₁ = compute_origin_stats l₂ := by
    rw [compute_origin_stats_spec, compute_origin_stats_spec, hasKeptOrigin_perm h,
      totalOriginEntries_perm h, keptRecords_length_perm h]
  have htally : ∀ k, (tallyOf l₁).lookup k = (tallyOf l₂).lookup k := by
    intro k
    rw [lookup_tallyOf, lookup_tallyOf, keyTouched_perm (entriesOf_perm h),
      keyTotal_perm (entriesOf_perm h)]
  have hnil : tallyOf l₁ = [] ↔ tallyOf l₂ = [] := by
    rw [tallyOf_eq_nil_iff, tallyOf_eq_nil_iff]
    constructor
    · intro h1
      have hp := entriesOf_perm h
      rw [h1] at hp
      exact hp.symm.eq_nil
    · intro h2
      have hp := (entriesOf_perm h).symm
      rw [h2] at hp
      exact hp.symm.eq_nil
  refine ⟨?_, rfl, ?_, rfl, rfl, ?_, ?_, ?_, ?_, ?_, ?_, ?_, ?_⟩
  · show (compute_origin_stats l₁).1 = (compute_origin_stats l₂).1
    rw [horigin]
  · show (compute_origin_stats l₁).2 = (compute_origin_stats l₂).2
    rw [horigin]
  · show some (((bucketsOf l₁).screened : Int) + (bucketsOf l₁).prescreen_excluded
        + (bucketsOf l₁).pdf_not_retrieved + (bucketsOf l₁).pdf_retrieved
        + (bucketsOf l₁).included)
      = some (((bucketsOf l₂).screened : Int) + (bucketsOf l₂).prescreen_excluded
        + (bucketsOf l₂).pdf_not_retrieved + (bucketsOf l₂).pdf_retrieved
        + (bucketsOf l₂).included)
    rw [hscr, hpe, hpnr, hpr, hinc]
  · show some (((bucketsOf l₁).prescreen_excluded : Int))
      = some (((bucketsOf l₂).prescreen_excluded : Int))
    rw [hpe]
  · show some ((((bucketsOf l₁).screened : Int) + (bucketsOf l₁).prescreen_excluded
        + (bucketsOf l₁).pdf_not_retrieved + (bucketsOf l₁).pdf_retrieved
        + (bucketsOf l₁).included) - (bucketsOf l₁).prescreen_excluded)
      = some ((((bucketsOf l₂).screened : Int) + (bucketsOf l₂).prescreen_excluded
        + (bucketsOf l₂).pdf_not_retrieved + (bucketsOf l₂).pdf_retrieved
        + (bucketsOf l₂).included) - (bucketsOf l₂).prescreen_excluded)
    rw [hscr, hpe, hpnr, hpr, hinc]
  · show some (((bucketsOf l₁).pdf_not_retrieved : Int))
      = some (((bucketsOf l₂).pdf_not_retrieved : Int))
    rw [hpnr]
  · show some (((bucketsOf l₁).pdf_retrieved : Int) + (bucketsOf l₁).included)
      = some (((bucketsOf l₂).pdf_retrieved : Int) + (bucketsOf l₂).included)
    rw [hpr, hinc]
  · show some (((bucketsOf l₁).included : Int)) = some (((bucketsOf l₂).included : Int))
    rw [hinc]
  · show some (((bucketsOf l₁).included : Int)) = some (((bucketsOf l₂).included : Int))
    rw [hinc]
  · show optionDictEquiv
      (if tallyOf l₁ = [] then none else some (tallyOf l₁))
      (if tallyOf l₂ = [] then none else some (tallyOf l₂))
    by_cases h1 : tallyOf l₁ = []
    · have h2 := hnil.mp h1
      simp [h1, h2, optionDictEquiv]
    · have h2 : ¬tallyOf l₂ = [] := fun hh => h1 (hnil.mpr hh)
      simp only [if_neg h1, if_neg h2, optionDictEquiv]
      exact htally

/-- Witness for C9: two permuted two-record collections produce
Python-equal summaries. -/
theorem records_to_status_perm_invariant_witness :
    statusEquiv
      (records_to_status
        [("r1", [("colrev_status", "rev_included")]),
         ("r2", [("colrev_status", "rev_excluded"),
                 ("screening_criteria", "{bias=out}")])])
      (records_to_status
        [("r2", [("colrev_status", "rev_excluded"),
                 ("screening_criteria", "{bias=out}")]),
         ("r1", [("colrev_status", "rev_included")])]) :=
  records_to_status_perm_invariant _ _ (by decide)

/-- C10: for every record collection, `new_reports` and `included` are
both set to the `included` bucket count. -/
theorem records_to_status_new_reports_eq_included (records : List (String × Rec)) :
    (records_to_status records).new_reports = (records_to_status records).included ∧
    (records_to_status records).included = some ((bucketsOf records).included : Int) :=
  ⟨rfl, rfl⟩

